import Mathlib

/-
  Shallow embedding of the multimodal-live-api-web-console core:
  the tool-call router (src/components/subtitles/Subtitles.tsx and
  src/components/onlysubtitles/OnlySubtitles.tsx), the video frame
  sampler (src/App.tsx VideoCanvas and the ControlTray variants), the
  microphone forwarding effect (ControlTray), and the clipboard
  save/restore IPC handlers (electron/main.ts).
-/

namespace MMLive

/-! ## Tool-call router (Subtitles.tsx onToolCall) -/

/-- One inbound function call of a ToolCall batch: server-assigned id and
tool name.  Arguments are not needed by the routing logic modelled here. -/
structure FunctionCall where
  id : String
  name : String
deriving DecidableEq, Repr

/-- Origin of an outbound ToolResponse message: emitted from inside an
opt-out handler branch, or by the generic batched acknowledgement after
the dispatch loop. -/
inductive Origin where
  | handler
  | genericAck
deriving DecidableEq, Repr

/-- Outbound network messages the router can produce: a ToolResponse
carrying (id, success) entries, or a client content message carrying
text (client.send in the opt-out branches). -/
inductive Msg where
  | toolResponse (origin : Origin) (entries : List (String × Bool))
  | clientContent (text : String)
deriving DecidableEq, Repr

/-- The names that opt the whole batch out of the generic acknowledgement
in Subtitles.tsx: list_windows, focus_window and read_text set
hasResponded to true. -/
def isOptOutName (name : String) : Bool :=
  name == "list_windows" || name == "focus_window" || name == "read_text"

/-- Entries of an acknowledgement ToolResponse:
toolCall.functionCalls.map with response output success true and the id
of each call.  Every call site in the source maps over the whole batch
and always reports success true. -/
def ackEntries (batch : List FunctionCall) : List (String × Bool) :=
  batch.map fun fc => (fc.id, true)

/-- State threaded through the dispatch loop of onToolCall: messages sent
so far, the hasResponded flag, and whether an uncaught exception has
aborted the async function. -/
structure LoopState where
  sent : List Msg
  hasResponded : Bool
  aborted : Bool
deriving DecidableEq, Repr

/-- One iteration of the for-loop of onToolCall in Subtitles.tsx.
The body has no try/catch, so a call whose handler throws aborts the
whole loop (modelled by the aborted flag; once set, later iterations do
nothing).  An opt-out call sends a ToolResponse covering the whole batch
plus a content message and sets hasResponded.  The remaining branches
(render_subtitles, remove_subtitles, render_graph, write_text, unknown
names) only touch UI or IPC state and send nothing.  throws gives each
call the outcome of its handler body; reply gives the text an opt-out
branch sends. -/
def processCall (throws : FunctionCall → Bool) (reply : FunctionCall → String)
    (batch : List FunctionCall) (s : LoopState) (fc : FunctionCall) : LoopState :=
  if s.aborted then s
  else if throws fc then { s with aborted := true }
  else if isOptOutName fc.name then
    { s with
      sent := s.sent ++
        [Msg.toolResponse Origin.handler (ackEntries batch),
         Msg.clientContent (reply fc)],
      hasResponded := true }
  else s

/-- The whole onToolCall handler of Subtitles.tsx: run the loop over the
batch, then, when the loop finished normally, the batch is nonempty and
hasResponded is still false, send the single generic acknowledgement
covering every call of the batch. -/
def onToolCall (throws : FunctionCall → Bool) (reply : FunctionCall → String)
    (batch : List FunctionCall) : LoopState :=
  let s := batch.foldl (processCall throws reply batch)
    { sent := [], hasResponded := false, aborted := false }
  if s.aborted then s
  else if batch.length ≠ 0 ∧ s.hasResponded = false then
    { s with sent := s.sent ++ [Msg.toolResponse Origin.genericAck (ackEntries batch)] }
  else s

/-- The onToolCall handler of OnlySubtitles.tsx: after dispatching the
two subtitle tools it always schedules one acknowledgement covering the
whole batch with success true for every id, whenever the batch is
nonempty. -/
def onToolCallOnlySubtitles (batch : List FunctionCall) : List Msg :=
  if batch.length ≠ 0 then
    [Msg.toolResponse Origin.genericAck (ackEntries batch)]
  else []

/-! ### Loop lemmas -/

/-- A loop iteration never does anything once aborted. -/
theorem foldl_processCall_aborted (throws : FunctionCall → Bool)
    (reply : FunctionCall → String) (batch l : List FunctionCall) (s : LoopState)
    (h : s.aborted = true) :
    l.foldl (processCall throws reply batch) s = s := by
  induction l with
  | nil => rfl
  | cons a l ih =>
      simp only [List.foldl_cons, processCall, h, if_pos]
      exact ih

/-- When every call of the iterated list neither throws nor opts out, the
loop leaves the state unchanged. -/
theorem foldl_processCall_id (throws : FunctionCall → Bool)
    (reply : FunctionCall → String) (batch l : List FunctionCall) (s : LoopState)
    (hthr : ∀ fc ∈ l, throws fc = false)
    (hopt : ∀ fc ∈ l, isOptOutName fc.name = false) :
    l.foldl (processCall throws reply batch) s = s := by
  induction l generalizing s with
  | nil => rfl
  | cons a l ih =>
      have ha1 : throws a = false := hthr a (by simp)
      have ha2 : isOptOutName a.name = false := hopt a (by simp)
      have step : processCall throws reply batch s a = s := by
        simp [processCall, ha1, ha2]
      rw [List.foldl_cons, step]
      exact ih s (fun fc hfc => hthr fc (by simp [hfc]))
        (fun fc hfc => hopt fc (by simp [hfc]))

/-- The hasResponded flag is never cleared by the loop. -/
theorem foldl_processCall_hasResponded (throws : FunctionCall → Bool)
    (reply : FunctionCall → String) (batch l : List FunctionCall) (s : LoopState)
    (h : s.hasResponded = true) :
    (l.foldl (processCall throws reply batch) s).hasResponded = true := by
  induction l generalizing s with
  | nil => exact h
  | cons a l ih =>
      rw [List.foldl_cons]
      apply ih
      simp only [processCall]
      split
      · exact h
      · split
        · exact h
        · split
          · rfl
          · exact h

/-- If some call of the iterated list throws, the loop ends aborted. -/
theorem foldl_processCall_throws (throws : FunctionCall → Bool)
    (reply : FunctionCall → String) (batch l : List FunctionCall) (s : LoopState)
    (h : ∃ fc ∈ l, throws fc = true) :
    (l.foldl (processCall throws reply batch) s).aborted = true := by
  induction l generalizing s with
  | nil => simp at h
  | cons a l ih =>
      rw [List.foldl_cons]
      by_cases hs : s.aborted = true
      · have hstep : (processCall throws reply batch s a).aborted = true := by
          simp [processCall, hs]
        rw [foldl_processCall_aborted throws reply batch l _ hstep]
        exact hstep
      · by_cases hta : throws a = true
        · have hstep : (processCall throws reply batch s a).aborted = true := by
            simp [processCall, hs, hta]
          rw [foldl_processCall_aborted throws reply batch l _ hstep]
          exact hstep
        · rcases h with ⟨fc, hfc, hfcthr⟩
          rcases List.mem_cons.mp hfc with rfl | hmem
          · exact absurd hfcthr hta
          · exact ih _ ⟨fc, hmem, hfcthr⟩

/-- If an opt-out call occurs in the iterated list and the loop did not
abort, the loop ends with hasResponded true. -/
theorem foldl_processCall_optOut (throws : FunctionCall → Bool)
    (reply : FunctionCall → String) (batch l : List FunctionCall) (s : LoopState)
    (h : ∃ fc ∈ l, isOptOutName fc.name = true)
    (hab : (l.foldl (processCall throws reply batch) s).aborted = false) :
    (l.foldl (processCall throws reply batch) s).hasResponded = true := by
  induction l generalizing s with
  | nil => simp at h
  | cons a l ih =>
      rw [List.foldl_cons] at hab ⊢
      by_cases hs : s.aborted = true
      · exfalso
        have hstep : (processCall throws reply batch s a).aborted = true := by
          simp [processCall, hs]
        rw [foldl_processCall_aborted throws reply batch l _ hstep, hstep] at hab
        simp at hab
      · by_cases hthr : throws a = true
        · exfalso
          have hstep : (processCall throws reply batch s a).aborted = true := by
            simp [processCall, hs, hthr]
          rw [foldl_processCall_aborted throws reply batch l _ hstep, hstep] at hab
          simp at hab
        · by_cases hopt : isOptOutName a.name = true
          · apply foldl_processCall_hasResponded
            simp [processCall, hs, hthr, hopt]
          · have hstep : processCall throws reply batch s a = s := by
              simp [processCall, hs, hthr, hopt]
            rw [hstep] at hab ⊢
            rcases h with ⟨fc, hfc, hfcopt⟩
            rcases List.mem_cons.mp hfc with rfl | hmem
            · exact absurd hfcopt (by simp [hopt])
            · exact ih s ⟨fc, hmem, hfcopt⟩ hab

/-- Every ToolResponse the loop itself appends originates from an opt-out
handler branch and carries the all-true batch entries; in particular the
loop never appends a generic acknowledgement. -/
theorem foldl_processCall_sent (throws : FunctionCall → Bool)
    (reply : FunctionCall → String) (batch l : List FunctionCall) (s : LoopState)
    (o : Origin) (es : List (String × Bool))
    (h : Msg.toolResponse o es ∈ (l.foldl (processCall throws reply batch) s).sent) :
    Msg.toolResponse o es ∈ s.sent ∨ (o = Origin.handler ∧ es = ackEntries batch) := by
  induction l generalizing s with
  | nil => exact Or.inl h
  | cons a l ih =>
      rw [List.foldl_cons] at h
      rcases ih _ h with hmem | hdone
      · simp only [processCall] at hmem
        split at hmem
        · exact Or.inl hmem
        · split at hmem
          · exact Or.inl hmem
          · split at hmem
            · simp only [List.mem_append, List.mem_cons, List.mem_singleton] at hmem
              rcases hmem with hmem | hmem | hmem
              · exact Or.inl hmem
              · rcases Msg.toolResponse.injEq .. ▸ hmem with ⟨ho, hes⟩
                exact Or.inr ⟨ho, hes⟩
              · exact absurd hmem (by simp)
            · exact Or.inl hmem
      · exact Or.inr hdone

/-- Any ToolResponse present in the final output of onToolCall carries
exactly the all-true entries over the whole batch, whichever call site
emitted it. -/
theorem onToolCall_toolResponse_entries (throws : FunctionCall → Bool)
    (reply : FunctionCall → String) (batch : List FunctionCall)
    (o : Origin) (es : List (String × Bool))
    (h : Msg.toolResponse o es ∈ (onToolCall throws reply batch).sent) :
    es = ackEntries batch := by
  simp only [onToolCall] at h
  set s := batch.foldl (processCall throws reply batch)
    { sent := [], hasResponded := false, aborted := false } with hs
  have base : ∀ o2 es2, Msg.toolResponse o2 es2 ∈ s.sent → es2 = ackEntries batch := by
    intro o2 es2 hmem
    rw [hs] at hmem
    rcases foldl_processCall_sent throws reply batch batch _ o2 es2 hmem with h0 | ⟨_, he⟩
    · simp at h0
    · exact he
  by_cases hab : s.aborted = true
  · rw [if_pos hab] at h
    exact base o es h
  · rw [if_neg hab] at h
    by_cases hc : batch.length ≠ 0 ∧ s.hasResponded = false
    · rw [if_pos hc] at h
      simp only [List.mem_append, List.mem_singleton] at h
      rcases h with h | h
      · exact base o es h
      · injection h with ho he
    · rw [if_neg hc] at h
      exact base o es h

/-- When an opt-out call is present in the batch, onToolCall returns the
loop state unchanged by the post-loop acknowledgement step. -/
theorem onToolCall_optOut_loop (throws : FunctionCall → Bool)
    (reply : FunctionCall → String) (batch : List FunctionCall)
    (h : ∃ fc ∈ batch, isOptOutName fc.name = true) :
    onToolCall throws reply batch =
      batch.foldl (processCall throws reply batch)
        { sent := [], hasResponded := false, aborted := false } := by
  simp only [onToolCall]
  set s := batch.foldl (processCall throws reply batch)
    { sent := [], hasResponded := false, aborted := false } with hs
  by_cases hab : s.aborted = true
  · rw [if_pos hab]
  · have hhr : s.hasResponded = true := by
      rw [hs]
      exact foldl_processCall_optOut throws reply batch batch _ h
        (by rw [← hs]; simpa using hab)
    rw [if_neg hab, if_neg (by simp [hhr])]

/-- C1: for an inbound ToolCall batch of N greater or equal 1 calls in
which no call is named list_windows, focus_window or read_text (and
every handler body completes normally, the throwing case being settled
separately), the handler sends exactly one outbound ToolResponse,
containing exactly N entries whose ids are a permutation (here: exactly
the identity enumeration) of the inbound ids. -/
theorem c1_single_generic_ack (throws : FunctionCall → Bool)
    (reply : FunctionCall → String) (batch : List FunctionCall)
    (hne : batch ≠ [])
    (hopt : ∀ fc ∈ batch, isOptOutName fc.name = false)
    (hthr : ∀ fc ∈ batch, throws fc = false) :
    (onToolCall throws reply batch).sent =
      [Msg.toolResponse Origin.genericAck (ackEntries batch)]
    ∧ (ackEntries batch).length = batch.length
    ∧ ((ackEntries batch).map Prod.fst).Perm (batch.map FunctionCall.id) := by
  have hloop := foldl_processCall_id throws reply batch batch
    { sent := [], hasResponded := false, aborted := false } hthr hopt
  refine ⟨?_, by simp [ackEntries], ?_⟩
  · simp only [onToolCall, hloop]
    have hlen : batch.length ≠ 0 := by
      simpa using hne
    simp [hlen]
  · have hids : (ackEntries batch).map Prod.fst = batch.map FunctionCall.id := by
      simp [ackEntries]
    rw [hids]

/-- Witness for C1 at a concrete two-call batch with one known and one
unregistered tool name. -/
def c1Batch : List FunctionCall :=
  [{ id := "t1", name := "render_subtitles" }, { id := "t2", name := "no_such_tool" }]

/-- C1 witness: the two-call batch c1Batch is acknowledged by exactly one
generic ToolResponse. -/
theorem c1_single_generic_ack_witness :
    (onToolCall (fun _ => false) (fun _ => "") c1Batch).sent =
      [Msg.toolResponse Origin.genericAck (ackEntries c1Batch)] :=
  (c1_single_generic_ack (fun _ => false) (fun _ => "") c1Batch (by decide)
    (by decide) (fun _ _ => rfl)).1

/-- Concrete batch used to exhibit the behaviour of a throwing handler. -/
def c2Batch : List FunctionCall := [{ id := "t1", name := "render_subtitles" }]

/-- C2 counterexample: when the handler of the single call of c2Batch
throws, the code sends no ToolResponse at all — in particular no entry
with success false for id t1 — and the batch processing is aborted,
contradicting the claim that a success false entry is still sent and
processing is not aborted. -/
theorem c2_throwing_handler_counterexample :
    (onToolCall (fun _ => true) (fun _ => "") c2Batch).sent = []
    ∧ (onToolCall (fun _ => true) (fun _ => "") c2Batch).aborted = true := by
  exact ⟨rfl, rfl⟩

/-- C2 as amended: a handler that throws aborts processing of the batch
at that call; the generic acknowledgement is never sent, no success
false entry is ever produced, and any ToolResponse that was already sent
by an earlier opt-out handler acknowledges every call of the batch with
success true. -/
theorem c2_throwing_handler_aborts (throws : FunctionCall → Bool)
    (reply : FunctionCall → String) (batch : List FunctionCall)
    (h : ∃ fc ∈ batch, throws fc = true) :
    (onToolCall throws reply batch).aborted = true
    ∧ (∀ es, Msg.toolResponse Origin.genericAck es ∉ (onToolCall throws reply batch).sent)
    ∧ (∀ o es p, Msg.toolResponse o es ∈ (onToolCall throws reply batch).sent →
        p ∈ es → p.2 = true) := by
  have hab := foldl_processCall_throws throws reply batch batch
    { sent := [], hasResponded := false, aborted := false } h
  have hres : onToolCall throws reply batch =
      batch.foldl (processCall throws reply batch)
        { sent := [], hasResponded := false, aborted := false } := by
    simp only [onToolCall]
    rw [if_pos hab]
  refine ⟨by rw [hres]; exact hab, ?_, ?_⟩
  · intro es hmem
    rw [hres] at hmem
    rcases foldl_processCall_sent throws reply batch batch _ _ _ hmem with h0 | ⟨ho, _⟩
    · simp at h0
    · exact Origin.noConfusion ho
  · intro o es p hmem hp
    rw [hres] at hmem
    rcases foldl_processCall_sent throws reply batch batch _ _ _ hmem with h0 | ⟨_, he⟩
    · simp at h0
    · rw [he] at hp
      simp only [ackEntries, List.mem_map] at hp
      rcases hp with ⟨fc, _, hfc⟩
      rw [← hfc]

/-- C2 amended witness at the concrete one-call batch c2Batch whose
handler throws. -/
theorem c2_throwing_handler_aborts_witness :
    (onToolCall (fun _ => true) (fun _ => "") c2Batch).aborted = true :=
  (c2_throwing_handler_aborts (fun _ => true) (fun _ => "") c2Batch
    ⟨{ id := "t1", name := "render_subtitles" }, by decide, rfl⟩).1

/-- C3: when the batch contains at least one opt-out call (read_text,
list_windows or focus_window), the generic batched acknowledgement is
never sent for the batch; every ToolResponse that goes out originates
from a handler branch. -/
theorem c3_optout_suppresses_generic_ack (throws : FunctionCall → Bool)
    (reply : FunctionCall → String) (batch : List FunctionCall)
    (h : ∃ fc ∈ batch, isOptOutName fc.name = true) :
    (∀ es, Msg.toolResponse Origin.genericAck es ∉ (onToolCall throws reply batch).sent)
    ∧ (∀ o es, Msg.toolResponse o es ∈ (onToolCall throws reply batch).sent →
        o = Origin.handler) := by
  rw [onToolCall_optOut_loop throws reply batch h]
  constructor
  · intro es hmem
    rcases foldl_processCall_sent throws reply batch batch _ _ _ hmem with h0 | ⟨ho, _⟩
    · simp at h0
    · exact Origin.noConfusion ho
  · intro o es hmem
    rcases foldl_processCall_sent throws reply batch batch _ _ _ hmem with h0 | ⟨ho, _⟩
    · simp at h0
    · exact ho

/-- Concrete batch containing one opt-out call and one ordinary call. -/
def c3Batch : List FunctionCall :=
  [{ id := "t1", name := "read_text" }, { id := "t2", name := "render_subtitles" }]

/-- C3 witness: for the concrete batch c3Batch containing read_text, the
generic acknowledgement message is not among the sent messages. -/
theorem c3_optout_suppresses_generic_ack_witness :
    Msg.toolResponse Origin.genericAck (ackEntries c3Batch) ∉
      (onToolCall (fun _ => false) (fun _ => "r") c3Batch).sent :=
  (c3_optout_suppresses_generic_ack (fun _ => false) (fun _ => "r") c3Batch
    ⟨{ id := "t1", name := "read_text" }, by decide, by decide⟩).1 (ackEntries c3Batch)

/-- C10: whenever a batch is answered by the generic acknowledgement, its
entries are exactly the batch ids each paired with success true — one
entry per call, success true regardless of the tool name, including
names matching no handler branch; and the OnlySubtitles router likewise
acknowledges every nonempty batch with all-true entries. -/
theorem c10_generic_ack_always_success (throws : FunctionCall → Bool)
    (reply : FunctionCall → String) (batch : List FunctionCall)
    (es : List (String × Bool))
    (h : Msg.toolResponse Origin.genericAck es ∈ (onToolCall throws reply batch).sent) :
    es = ackEntries batch
    ∧ (∀ fc ∈ batch, (fc.id, true) ∈ es)
    ∧ (∀ p ∈ es, p.2 = true)
    ∧ (∀ batch2 : List FunctionCall, batch2.length ≠ 0 →
        onToolCallOnlySubtitles batch2 =
          [Msg.toolResponse Origin.genericAck (ackEntries batch2)]) := by
  have he := onToolCall_toolResponse_entries throws reply batch _ es h
  refine ⟨he, ?_, ?_, ?_⟩
  · intro fc hfc
    rw [he]
    simp only [ackEntries, List.mem_map]
    exact ⟨fc, hfc, rfl⟩
  · intro p hp
    rw [he] at hp
    simp only [ackEntries, List.mem_map] at hp
    rcases hp with ⟨fc, _, hfc⟩
    rw [← hfc]
  · intro batch2 h2
    simp [onToolCallOnlySubtitles, h2]

/-- Concrete batch whose single call has a name matching no handler
branch. -/
def c10Batch : List FunctionCall := [{ id := "t9", name := "made_up_tool" }]

/-- C10 witness: the unknown-name call of c10Batch is acknowledged with
success true. -/
theorem c10_generic_ack_always_success_witness :
    ((⟨"t9", "made_up_tool"⟩ : FunctionCall).id, true) ∈ ackEntries c10Batch :=
  (c10_generic_ack_always_success (fun _ => false) (fun _ => "") c10Batch
    (ackEntries c10Batch) (by decide)).2.1 ⟨"t9", "made_up_tool"⟩ (by decide)

/-! ## Video frame sampler (sendVideoFrame in App.tsx VideoCanvas and in
the ControlTray variants; both bodies are identical) -/

/-- A video chunk handed to client.sendRealtimeInput: mime type, base64
payload (data URL with the prefix sliced off), together with the canvas
dimensions and the JPEG quality used to encode it. -/
structure VideoChunk where
  mimeType : String
  data : String
  width : ℚ
  height : ℚ
  quality : ℚ
deriving DecidableEq, Repr

/-- Ambient state read by one invocation of sendVideoFrame: whether the
video and canvas refs are non-null, the source dimensions, the string
toDataURL returns for this frame, and the connected flag captured by the
effect closure. -/
structure VideoEnv where
  videoPresent : Bool
  canvasPresent : Bool
  videoWidth : ℕ
  videoHeight : ℕ
  dataURL : String
  connected : Bool
deriving DecidableEq, Repr

/-- Result of one invocation of sendVideoFrame: the chunk sent, if any,
and the delay of the setTimeout scheduled for the next invocation, if
any. -/
structure FrameResult where
  chunk : Option VideoChunk
  nextTimeoutMs : Option ℚ
deriving DecidableEq, Repr

/-- Everything of a list of characters strictly after the first comma. -/
def dropThroughCommaAux : List Char → List Char
  | [] => []
  | c :: cs => if c = ',' then cs else dropThroughCommaAux cs

/-- The expression base64.slice of base64.indexOf comma plus 1 up to
Infinity: everything after the first comma, or the whole string when no
comma occurs (indexOf returns minus 1, so slice starts at 0). -/
def sliceAfterComma (s : String) : String :=
  if ',' ∈ s.data then String.mk (dropThroughCommaAux s.data) else s

/-- The body of sendVideoFrame: return early when video or canvas ref is
null; set the canvas to a quarter of the source linear dimensions; when
the sum of the two canvas dimensions is positive, encode the canvas as
image/jpeg at quality 1.0 and send the sliced base64 payload; finally,
when still connected, schedule the next invocation after 1000 / 0.5
milliseconds. -/
def sendVideoFrame (env : VideoEnv) : FrameResult :=
  if !(env.videoPresent && env.canvasPresent) then
    { chunk := none, nextTimeoutMs := none }
  else
    let w : ℚ := (env.videoWidth : ℚ) * 0.25
    let h : ℚ := (env.videoHeight : ℚ) * 0.25
    { chunk :=
        if w + h > 0 then
          some { mimeType := "image/jpeg", data := sliceAfterComma env.dataURL,
                 width := w, height := h, quality := 1.0 }
        else none,
      nextTimeoutMs := if env.connected then some (1000 / 0.5) else none }

/-- Concrete sampler state with a source of width 0 and height 8: the
downscaled canvas is 0 by 2, the sum guard passes, and a chunk of width
0 is emitted. -/
def c4Env : VideoEnv :=
  { videoPresent := true, canvasPresent := true, videoWidth := 0, videoHeight := 8,
    dataURL := "data:,", connected := true }

/-- The chunk sendVideoFrame emits at c4Env: width zero, height two. -/
def c4Chunk : VideoChunk :=
  { mimeType := "image/jpeg", data := "", width := 0, height := 2, quality := 1 }

/-- At c4Env the sampler emits exactly c4Chunk. -/
theorem sendVideoFrame_c4Env : (sendVideoFrame c4Env).chunk = some c4Chunk := by
  have hslice : sliceAfterComma "data:," = "" := by decide
  norm_num [sendVideoFrame, c4Env, c4Chunk, hslice]

/-- C4 counterexample: at c4Env, sendVideoFrame emits a chunk whose
downscaled width is zero, because the guard in the code tests the sum of
the two dimensions rather than each dimension separately; the claim that
a chunk is sent only when both dimensions are nonzero is therefore false
at this input. -/
theorem c4_zero_width_counterexample :
    (sendVideoFrame c4Env).chunk = some c4Chunk ∧ c4Chunk.width = 0 :=
  ⟨sendVideoFrame_c4Env, rfl⟩

/-- C4 as amended: a chunk is emitted only when the sum of the downscaled
canvas dimensions is positive, that is, at least one of the two
dimensions is nonzero; in particular no chunk is emitted when both
dimensions are zero (a source that has not yet produced a frame). -/
theorem c4_amended_sum_guard (env : VideoEnv) (c : VideoChunk)
    (h : (sendVideoFrame env).chunk = some c) :
    c.width + c.height > 0 ∧ ¬(c.width = 0 ∧ c.height = 0) := by
  simp only [sendVideoFrame] at h
  split at h
  · simp at h
  · split at h
    · rename_i hpos
      simp only [Option.some.injEq] at h
      subst h
      refine ⟨hpos, ?_⟩
      intro hc
      have h1 : (env.videoWidth : ℚ) * 0.25 = 0 := hc.1
      have h2 : (env.videoHeight : ℚ) * 0.25 = 0 := hc.2
      rw [h1, h2] at hpos
      simp at hpos
    · simp at h

/-- C4 amended witness: at c4Env the emitted chunk satisfies the
sum-positivity guarantee. -/
theorem c4_amended_sum_guard_witness :
    c4Chunk.width + c4Chunk.height > 0 ∧ ¬(c4Chunk.width = 0 ∧ c4Chunk.height = 0) :=
  c4_amended_sum_guard c4Env c4Chunk sendVideoFrame_c4Env

/-- C7: whenever video and canvas are present and the closure-captured
connected flag is true, each invocation of sendVideoFrame schedules the
next one after exactly 1000 / 0.5 milliseconds, and that delay equals
2000 milliseconds, independent of anything about the source. -/
theorem c7_fixed_cadence (env : VideoEnv)
    (hv : env.videoPresent = true) (hc : env.canvasPresent = true)
    (hconn : env.connected = true) :
    (sendVideoFrame env).nextTimeoutMs = some (1000 / 0.5)
    ∧ (1000 / 0.5 : ℚ) = 2000 := by
  refine ⟨?_, by norm_num⟩
  simp [sendVideoFrame, hv, hc, hconn]

/-- Concrete connected environment for the C7 witness. -/
def c7Env : VideoEnv :=
  { videoPresent := true, canvasPresent := true, videoWidth := 64,
    videoHeight := 48, dataURL := "d,x", connected := true }

/-- C7 witness at the concrete connected environment c7Env. -/
theorem c7_fixed_cadence_witness :
    (sendVideoFrame c7Env).nextTimeoutMs = some (1000 / 0.5) :=
  (c7_fixed_cadence c7Env rfl rfl rfl).1

theorem data_append (a b : String) : (a ++ b).data = a.data ++ b.data := rfl

/-- Dropping through the first comma of a comma-free prefix followed by a
comma yields exactly the suffix. -/
theorem dropThroughCommaAux_append (a b : List Char) (h : ',' ∉ a) :
    dropThroughCommaAux (a ++ ',' :: b) = b := by
  induction a with
  | nil => simp [dropThroughCommaAux]
  | cons x a ih =>
      have hx : ¬x = ',' := by
        intro hx
        exact h (by simp [hx])
      simp only [List.cons_append, dropThroughCommaAux, if_neg hx]
      exact ih fun hm => h (List.mem_cons_of_mem _ hm)

/-- Slicing after the first comma of a JPEG data URL recovers exactly
the payload, since the first comma of the URL is the one ending the
prefix. -/
theorem sliceAfterComma_dataURL (payload : String) :
    sliceAfterComma ("data:image/jpeg;base64," ++ payload) = payload := by
  have hdata : ("data:image/jpeg;base64," ++ payload).data =
      "data:image/jpeg;base64".data ++ ',' :: payload.data := by
    rw [data_append]
    have hpre : ("data:image/jpeg;base64,").data =
        "data:image/jpeg;base64".data ++ [','] := by decide
    rw [hpre, List.append_assoc, List.singleton_append]
  have hmem : ',' ∈ ("data:image/jpeg;base64," ++ payload).data := by
    rw [hdata]
    exact List.mem_append_right _ (List.mem_cons_self _ _)
  unfold sliceAfterComma
  rw [if_pos hmem, hdata, dropThroughCommaAux_append _ _ (by decide)]

/-- C8: every chunk sendVideoFrame emits was produced from a canvas of
exactly a quarter of the source linear dimensions, encoded as image/jpeg
at quality 1.0, and its payload is exactly the base64 part of the data
URL with the prefix stripped, sent under mime type image/jpeg. -/
theorem c8_chunk_format (env : VideoEnv) (payload : String) (c : VideoChunk)
    (hurl : env.dataURL = "data:image/jpeg;base64," ++ payload)
    (h : (sendVideoFrame env).chunk = some c) :
    c.mimeType = "image/jpeg"
    ∧ c.quality = 1.0
    ∧ c.width = (env.videoWidth : ℚ) * 0.25
    ∧ c.height = (env.videoHeight : ℚ) * 0.25
    ∧ c.data = payload := by
  simp only [sendVideoFrame] at h
  split at h
  · simp at h
  · split at h
    · simp only [Option.some.injEq] at h
      subst h
      refine ⟨rfl, rfl, rfl, rfl, ?_⟩
      show sliceAfterComma env.dataURL = payload
      rw [hurl]
      exact sliceAfterComma_dataURL payload
    · simp at h

/-- Concrete environment for the C8 witness: an 8 by 4 source and a data
URL with payload QUJD. -/
def c8Env : VideoEnv :=
  { videoPresent := true, canvasPresent := true, videoWidth := 8, videoHeight := 4,
    dataURL := "data:image/jpeg;base64,QUJD", connected := false }

/-- The chunk sendVideoFrame emits at c8Env. -/
def c8Chunk : VideoChunk :=
  { mimeType := "image/jpeg", data := "QUJD", width := 2, height := 1, quality := 1.0 }

/-- At c8Env the sampler emits exactly c8Chunk. -/
theorem sendVideoFrame_c8Env : (sendVideoFrame c8Env).chunk = some c8Chunk := by
  have hslice : sliceAfterComma "data:image/jpeg;base64,QUJD" = "QUJD" := by decide
  norm_num [sendVideoFrame, c8Env, c8Chunk, hslice]

/-- C8 witness: at c8Env the emitted chunk carries exactly the base64
payload of the data URL. -/
theorem c8_chunk_format_witness : c8Chunk.data = "QUJD" :=
  (c8_chunk_format c8Env "QUJD" c8Chunk rfl sendVideoFrame_c8Env).2.2.2.2

/-! ## Sampling lifecycle (the video useEffect and the disconnect effect
of ControlTray) -/

/-- State of the video sampling effect: the connected flag captured by
the closure of the current effect instance, whether a video source is
attached, and whether a timer or animation frame callback is pending. -/
structure VideoSampler where
  closureConnected : Bool
  hasStream : Bool
  pending : Bool
deriving DecidableEq, Repr

/-- The effect cleanup: clearTimeout cancels any pending callback. -/
def cleanupVideoEffect (s : VideoSampler) : VideoSampler :=
  { s with pending := false }

/-- A rerun of the video effect for new values of the connected and
stream dependencies: React first runs the cleanup of the previous
instance, then the new body schedules a first callback via
requestAnimationFrame only when connected and a stream is attached. -/
def runVideoEffect (connected hasStream : Bool) (s : VideoSampler) : VideoSampler :=
  let s0 := cleanupVideoEffect s
  { s0 with
      closureConnected := connected
      hasStream := hasStream
      pending := connected && hasStream }

/-- Firing the pending callback: it runs sendVideoFrame with the
connected value captured by the closure, leaving a pending timer exactly
when that invocation scheduled one. -/
def fireTimer (s : VideoSampler) (f : VideoEnv) : VideoSampler × Option VideoChunk :=
  if s.pending then
    let r := sendVideoFrame { f with connected := s.closureConnected }
    ({ s with pending := r.nextTimeoutMs.isSome }, r.chunk)
  else (s, none)

/-- Firing any number of callbacks in sequence, collecting the emitted
chunks. -/
def fireMany : VideoSampler → List VideoEnv → VideoSampler × List VideoChunk
  | s, [] => (s, [])
  | s, f :: fs =>
      let sc := fireTimer s f
      let rest := fireMany sc.1 fs
      (rest.1, sc.2.toList ++ rest.2)

/-- With no pending callback nothing ever fires again. -/
theorem fireMany_stopped (s : VideoSampler) (frames : List VideoEnv)
    (h : s.pending = false) : fireMany s frames = (s, []) := by
  induction frames with
  | nil => rfl
  | cons f fs ih =>
      simp only [fireMany, fireTimer, h]
      simpa using ih

/-- Which capture stream, if any, is passed to changeStreams as next. -/
inductive StreamChoice where
  | webcam
  | screen
deriving DecidableEq, Repr

/-- Running flags of the two capture streams plus whether an active video
stream is set. -/
structure MediaStreamsState where
  webcamOn : Bool
  screenOn : Bool
  activeStream : Bool
deriving DecidableEq, Repr

/-- changeStreams of ControlTray: start the requested stream (or set the
active stream to null when none is requested or the start failed), then
stop every stream that is not the requested one. -/
def changeStreams (next : Option StreamChoice) (startOk : Bool)
    (_m : MediaStreamsState) : MediaStreamsState :=
  { activeStream :=
      match next with
      | some _ => startOk
      | none => false,
    webcamOn := if next = some StreamChoice.webcam then startOk else false,
    screenOn := if next = some StreamChoice.screen then startOk else false }

/-- The ControlTray effect that reacts to the connected flag: when the
connection is gone it calls changeStreams with no argument, stopping all
streams and clearing the active one. -/
def disconnectStreamsEffect (connected : Bool) (m : MediaStreamsState) :
    MediaStreamsState :=
  if connected then m else changeStreams none true m

/-- C6: when the connection leaves the Connected state or the video
source is gone, sampling stops: the cleanup cancels any pending timer, a
rerun of the effect with connected false (or with no stream) schedules
nothing, every subsequent callback run emits no chunk and leaves nothing
pending, and the disconnect effect stops both capture streams and clears
the active stream. -/
theorem c6_sampling_stops_on_disconnect :
    ∀ (s : VideoSampler) (c hs : Bool) (frames : List VideoEnv)
      (m : MediaStreamsState),
      (cleanupVideoEffect s).pending = false
      ∧ (runVideoEffect false hs s).pending = false
      ∧ (runVideoEffect c false s).pending = false
      ∧ (fireMany (runVideoEffect false hs s) frames).2 = []
      ∧ (fireMany (runVideoEffect false hs s) frames).1.pending = false
      ∧ (disconnectStreamsEffect false m).webcamOn = false
      ∧ (disconnectStreamsEffect false m).screenOn = false
      ∧ (disconnectStreamsEffect false m).activeStream = false := by
  intro s c hs frames m
  have h1 : (runVideoEffect false hs s).pending = false := by
    simp [runVideoEffect, cleanupVideoEffect]
  have h2 : (runVideoEffect c false s).pending = false := by
    simp [runVideoEffect, cleanupVideoEffect]
  have h4 := fireMany_stopped (runVideoEffect false hs s) frames h1
  refine ⟨rfl, h1, h2, by rw [h4], by rw [h4]; exact h1, ?_, ?_, ?_⟩
  · simp [disconnectStreamsEffect, changeStreams]
  · simp [disconnectStreamsEffect, changeStreams]
  · simp [disconnectStreamsEffect, changeStreams]

/-! ## Microphone forwarding (the audioRecorder useEffect of both
ControlTray variants; the two bodies are identical) -/

/-- Listener and device state of the AudioRecorder as seen from the
ControlTray effect. -/
structure AudioRecorderState where
  recording : Bool
  dataHooked : Bool
  volumeHooked : Bool
deriving DecidableEq, Repr

namespace AudioRecorderState

/-- Registering the data listener (audioRecorder.on with data). -/
def onData (r : AudioRecorderState) : AudioRecorderState :=
  { r with dataHooked := true }

/-- Registering the volume listener (audioRecorder.on with volume). -/
def onVolume (r : AudioRecorderState) : AudioRecorderState :=
  { r with volumeHooked := true }

/-- Starting capture (audioRecorder.start). -/
def start (r : AudioRecorderState) : AudioRecorderState :=
  { r with recording := true }

/-- Stopping capture (audioRecorder.stop). -/
def stop (r : AudioRecorderState) : AudioRecorderState :=
  { r with recording := false }

/-- Removing the data listener (audioRecorder.off, effect cleanup). -/
def offData (r : AudioRecorderState) : AudioRecorderState :=
  { r with dataHooked := false }

/-- Removing the volume listener (audioRecorder.off, effect cleanup). -/
def offVolume (r : AudioRecorderState) : AudioRecorderState :=
  { r with volumeHooked := false }

end AudioRecorderState

/-- A realtime media chunk handed to client.sendRealtimeInput. -/
structure RealtimeChunk where
  mimeType : String
  data : String
deriving DecidableEq, Repr

/-- The body of the audio effect: when connected and not muted, hook both
listeners and start the recorder; otherwise stop the recorder. -/
def audioEffectBody (connected muted : Bool) (r : AudioRecorderState) :
    AudioRecorderState :=
  if connected && !muted then ((r.onData).onVolume).start else r.stop

/-- A hardware buffer callback delivering a base64 chunk: the onData
listener forwards it to sendRealtimeInput as 16 kHz PCM exactly when the
recorder is running and the listener is attached. -/
def emitAudioData (r : AudioRecorderState) (base64 : String) : List RealtimeChunk :=
  if r.recording && r.dataHooked then
    [{ mimeType := "audio/pcm;rate=16000", data := base64 }]
  else []

/-- C5: after the audio effect has run for given connected and muted
flags, a microphone buffer is forwarded to sendRealtimeInput exactly
when the session is connected and the microphone is not muted; whenever
connected is false the recorder is stopped and nothing is forwarded. -/
theorem c5_audio_only_when_connected :
    ∀ (connected muted : Bool) (r : AudioRecorderState) (chunk : String),
      emitAudioData (audioEffectBody connected muted r) chunk =
        (if connected && !muted then
          [{ mimeType := "audio/pcm;rate=16000", data := chunk }] else [])
      ∧ (audioEffectBody false muted r).recording = false := by
  intro connected muted r chunk
  cases connected <;> cases muted <;>
    simp [audioEffectBody, emitAudioData, AudioRecorderState.onData,
      AudioRecorderState.onVolume, AudioRecorderState.start, AudioRecorderState.stop]

/-! ## Clipboard save and restore (electron/main.ts, getSelectedText and
the write-text and paste-content handlers) -/

/-- getSelectedText of electron/main.ts, on the path without exception:
read and save the clipboard, simulate the copy keystroke (the operating
system rewrites the clipboard as a function of the prior state and the
current selection, modelled by copyEffect), read the selection from the
clipboard, then write the saved text back.  Returns the final clipboard
content and the text read. -/
def getSelectedText (copyEffect : String → String) (clip : String) : String × String :=
  let previousClipboard := clip
  let clipAfterCopy := copyEffect clip
  let selectedText := clipAfterCopy
  let clipRestored := previousClipboard
  (clipRestored, selectedText)

/-- Clipboard contents observed while the write-text handler runs: the
value while the paste keystroke is simulated and the value after the
delayed restore. -/
structure WriteTextResult where
  clipDuringPaste : String
  clipFinal : String
deriving DecidableEq, Repr

/-- The write-text (and identical paste-content) IPC handler of
electron/main.ts, on the path without exception: save the clipboard,
write the content to paste, simulate the paste keystroke (which reads
but does not modify the clipboard), then restore the saved text after a
short delay. -/
def writeTextHandler (content clip : String) : WriteTextResult :=
  let previousClipboard := clip
  let clipWithContent := content
  let clipFinal := previousClipboard
  { clipDuringPaste := clipWithContent, clipFinal := clipFinal }

/-- C9: both clipboard-borrowing IPC handlers restore the clipboard: on
every invocation that completes without an exception the clipboard ends
with exactly its prior content, after having been temporarily overwritten
(write-text pastes the requested content; getSelectedText returns
whatever the simulated copy placed in the clipboard). -/
theorem c9_clipboard_preserved :
    ∀ (clip content : String) (copyEffect : String → String),
      (getSelectedText copyEffect clip).1 = clip
      ∧ (getSelectedText copyEffect clip).2 = copyEffect clip
      ∧ (writeTextHandler content clip).clipFinal = clip
      ∧ (writeTextHandler content clip).clipDuringPaste = content := by
  intro clip content copyEffect
  exact ⟨rfl, rfl, rfl, rfl⟩

end MMLive
